import Mathlib

/-!
Shallow embedding of the CMS static-replication pricing notebook
(file `QF 605 Part 4 Final.ipynb`, the authoritative final version):
the IRR annuity functions, the CMS payoff transform, the replication
weights, the SABR implied-volatility function, the Black76 pricers,
the IRR-settled swaptions, the replication integrands and the two
present-value formulas.  Python floats are modelled as real numbers,
`numpy` powers and logs as `Real.rpow` and `Real.log`,
`scipy.stats.norm.cdf` as the Gaussian integral, and
`scipy.integrate.quad` as the Lebesgue interval integral.
-/

open Real MeasureTheory Filter Set

noncomputable section

/-- Source: `IRR_0(K, m, N) = 1/K * (1.0 - 1/(1 + K/m)**(N*m))`. -/
def IRR_0 (K m N : ℝ) : ℝ := 1/K * (1 - 1/(1 + K/m) ^ (N*m))

/-- Source: `IRR_1(K, m, N) = -1/K*IRR_0(K, m, N) + 1/(K*m)*N*m/(1+K/m)**(N*m+1)`. -/
def IRR_1 (K m N : ℝ) : ℝ := -1/K*IRR_0 K m N + 1/(K*m)*N*m/(1 + K/m) ^ (N*m+1)

/-- Source: `IRR_2(K, m, N) = -2/K*IRR_1(K, m, N) - 1/(K*m*m)*(N*m)*(N*m+1)/(1+K/m)**(N*m+2)`. -/
def IRR_2 (K m N : ℝ) : ℝ := -2/K*IRR_1 K m N - 1/(K*m*m)*(N*m)*(N*m+1)/(1 + K/m) ^ (N*m+2)

/-- Source: `g_0(K) = K**(1/4) - 0.04**(1/2)`. -/
def g_0 (K : ℝ) : ℝ := K ^ ((1:ℝ)/4) - (0.04:ℝ) ^ ((1:ℝ)/2)

/-- Source: `g_1(K) = (1/4) * K**(-3/4)`. -/
def g_1 (K : ℝ) : ℝ := 1/4 * K ^ (-(3:ℝ)/4)

/-- Source: `g_2(K) = (-3/16) * K**(-7/4)`. -/
def g_2 (K : ℝ) : ℝ := -3/16 * K ^ (-(7:ℝ)/4)

/-- Source: `h_0(K, m, N) = g_0(K) / IRR_0(K, m, N)`. -/
def h_0 (K m N : ℝ) : ℝ := g_0 K / IRR_0 K m N

/-- Source: `h_1(K, m, N) = (IRR_0(K,m,N)*g_1(K) - g_0(K)*IRR_1(K,m,N)) / IRR_0(K,m,N)**2`. -/
def h_1 (K m N : ℝ) : ℝ := (IRR_0 K m N * g_1 K - g_0 K * IRR_1 K m N) / (IRR_0 K m N)^2

/-- Source: `h_2 = (IRR_0*g_2 - IRR_2*g_0 - 2*IRR_1*g_1)/IRR_0**2 + 2*IRR_1**2*g_0/IRR_0**3`. -/
def h_2 (K m N : ℝ) : ℝ :=
  (IRR_0 K m N * g_2 K - IRR_2 K m N * g_0 K - 2*IRR_1 K m N * g_1 K) / (IRR_0 K m N)^2
    + 2*(IRR_1 K m N)^2*g_0 K / (IRR_0 K m N)^3

/-- SABR at-the-money branch, `numer1` intermediate:
`numer1 = (((1 - beta)**2)/24)*alpha*alpha/(F**(2 - 2*beta))`. -/
def sabrA1 (F alpha beta : ℝ) : ℝ := ((1 - beta)^2/24)*alpha*alpha/(F ^ (2 - 2*beta))

/-- SABR at-the-money branch, `numer2` intermediate:
`numer2 = 0.25*rho*beta*nu*alpha/(F**(1 - beta))`. -/
def sabrA2 (F alpha beta rho nu : ℝ) : ℝ := 0.25*rho*beta*nu*alpha/(F ^ (1 - beta))

/-- SABR `numer3` intermediate (same in both branches):
`numer3 = ((2 - 3*rho*rho)/24)*nu*nu`. -/
def sabrA3 (rho nu : ℝ) : ℝ := ((2 - 3*rho*rho)/24)*nu*nu

/-- SABR at-the-money branch value:
`VolAtm = alpha*(1 + (numer1 + numer2 + numer3)*T)/(F**(1-beta))`. -/
def sabrATM (F T alpha beta rho nu : ℝ) : ℝ :=
  alpha*(1 + (sabrA1 F alpha beta + sabrA2 F alpha beta rho nu + sabrA3 rho nu)*T)/(F ^ (1 - beta))

/-- SABR general branch, `z = (nu/alpha)*((F*X)**(0.5*(1-beta)))*np.log(F/X)` with `X = K`. -/
def sabrz (F K alpha beta nu : ℝ) : ℝ := (nu/alpha)*((F*K) ^ (0.5*(1 - beta)))*Real.log (F/K)

/-- SABR general branch, `zhi = np.log((((1 - 2*rho*z + z*z)**0.5) + z - rho)/(1 - rho))`. -/
def sabrchi (z rho : ℝ) : ℝ := Real.log (((1 - 2*rho*z + z*z) ^ (0.5:ℝ) + z - rho)/(1 - rho))

/-- SABR general branch, `numer1 = (((1 - beta)**2)/24)*((alpha*alpha)/((F*X)**(1 - beta)))`. -/
def sabrG1 (F K alpha beta : ℝ) : ℝ := ((1 - beta)^2/24)*((alpha*alpha)/((F*K) ^ (1 - beta)))

/-- SABR general branch, `numer2 = 0.25*rho*beta*nu*alpha/((F*X)**((1 - beta)/2))`. -/
def sabrG2 (F K alpha beta rho nu : ℝ) : ℝ := 0.25*rho*beta*nu*alpha/((F*K) ^ ((1 - beta)/2))

/-- SABR general branch, `denom1 = ((1 - beta)**2/24)*(np.log(F/X))**2`. -/
def sabrD1 (F K beta : ℝ) : ℝ := ((1 - beta)^2/24)*(Real.log (F/K))^2

/-- SABR general branch, `denom2 = (((1 - beta)**4)/1920)*((np.log(F/X))**4)`. -/
def sabrD2 (F K beta : ℝ) : ℝ := ((1 - beta)^4/1920)*((Real.log (F/K))^4)

/-- SABR general branch value: `numer/denom` with
`numer = alpha*(1 + (numer1 + numer2 + numer3)*T)*z` and
`denom = ((F*X)**((1 - beta)/2))*(1 + denom1 + denom2)*zhi`. -/
def sabrGeneral (F K T alpha beta rho nu : ℝ) : ℝ :=
  alpha*(1 + (sabrG1 F K alpha beta + sabrG2 F K alpha beta rho nu + sabrA3 rho nu)*T)
      *sabrz F K alpha beta nu
    / (((F*K) ^ ((1 - beta)/2))*(1 + sabrD1 F K beta + sabrD2 F K beta)
      *sabrchi (sabrz F K alpha beta nu) rho)

/-- Source `SABR(F, K, T, alpha, beta, rho, nu)`: branches on `abs(F - K) < 1e-12`. -/
def SABR (F K T alpha beta rho nu : ℝ) : ℝ :=
  if |F - K| < 1e-12 then sabrATM F T alpha beta rho nu else sabrGeneral F K T alpha beta rho nu

/-- The Hagan correction factor `1 + (numer1 + numer2 + numer3)*T` of the branch of `SABR`
that applies to the given inputs.  Used to state the amended positivity guarantee. -/
def sabrFactor (F K T alpha beta rho nu : ℝ) : ℝ :=
  if |F - K| < 1e-12 then
    1 + (sabrA1 F alpha beta + sabrA2 F alpha beta rho nu + sabrA3 rho nu)*T
  else
    1 + (sabrG1 F K alpha beta + sabrG2 F K alpha beta rho nu + sabrA3 rho nu)*T

/-- General-branch value as claim C3 states it literally: the correction terms `term1`,
`term2` are the at-the-money ones (powers of `F` alone), not the code's `(F*K)` powers. -/
def sabrGeneralClaimC3 (F K T alpha beta rho nu : ℝ) : ℝ :=
  alpha*(1 + (sabrA1 F alpha beta + sabrA2 F alpha beta rho nu + sabrA3 rho nu)*T)
      *sabrz F K alpha beta nu
    / (((F*K) ^ ((1 - beta)/2))*(1 + sabrD1 F K beta + sabrD2 F K beta)
      *sabrchi (sabrz F K alpha beta nu) rho)

/-- The SABR function as claim C3 states it (its general branch reuses the
at-the-money correction terms). -/
def SABRclaimC3 (F K T alpha beta rho nu : ℝ) : ℝ :=
  if |F - K| < 1e-12 then sabrATM F T alpha beta rho nu
  else sabrGeneralClaimC3 F K T alpha beta rho nu

/-- Standard normal cumulative distribution function; models `scipy.stats.norm.cdf`. -/
def normCdf (x : ℝ) : ℝ := (∫ t in Iic x, Real.exp (-t^2/2)) / Real.sqrt (2*Real.pi)

/-- Source: `d1 = (np.log(F/K) + (sigma**2)*T/2)/(sigma*np.sqrt(T))`. -/
def Bd1 (F K sigma T : ℝ) : ℝ := (Real.log (F/K) + sigma^2*T/2)/(sigma*Real.sqrt T)

/-- Source: `d2 = (np.log(F/K) - (sigma**2)*T/2)/(sigma*np.sqrt(T))`. -/
def Bd2 (F K sigma T : ℝ) : ℝ := (Real.log (F/K) - sigma^2*T/2)/(sigma*Real.sqrt T)

/-- Source: `Black76Call(F, K, sigma, T) = F*norm.cdf(d1) - K*norm.cdf(d2)`. -/
def Black76Call (F K sigma T : ℝ) : ℝ :=
  F*normCdf (Bd1 F K sigma T) - K*normCdf (Bd2 F K sigma T)

/-- Source: `Black76Put(F, K, sigma, T) = K*norm.cdf(-d2) - F*norm.cdf(-d1)`. -/
def Black76Put (F K sigma T : ℝ) : ℝ :=
  K*normCdf (-Bd2 F K sigma T) - F*normCdf (-Bd1 F K sigma T)

/-- Source: `payer_swaption(discount, F, K, sigma, T, m, N)
= discount * IRR_0(F, m, N) * Black76Call(F, K, sigma, T)`. -/
def payer_swaption (discount F K sigma T m N : ℝ) : ℝ :=
  discount * IRR_0 F m N * Black76Call F K sigma T

/-- Source: `receiver_swaption(discount, F, K, sigma, T, m, N)
= discount * IRR_0(F, m, N) * Black76Put(F, K, sigma, T)`. -/
def receiver_swaption (discount F K sigma T m N : ℝ) : ℝ :=
  discount * IRR_0 F m N * Black76Put F K sigma T

/-- Source: `call_integrand = h_2(K, m, N) * payer_swaption(discount, F, K, sigma, T, m, N)`. -/
def call_integrand (discount F K sigma T m N : ℝ) : ℝ :=
  h_2 K m N * payer_swaption discount F K sigma T m N

/-- Source: `put_integrand = h_2(K, m, N) * receiver_swaption(discount, F, K, sigma, T, m, N)`. -/
def put_integrand (discount F K sigma T m N : ℝ) : ℝ :=
  h_2 K m N * receiver_swaption discount F K sigma T m N

/-- Scenario-1 lower integral
`I_put = quad(lambda x: put_integrand(discount, F, x, SABR(F,x,T,...), T, m, N), 0.0, F)`. -/
def I_put (discount F T m N alpha beta rho nu : ℝ) : ℝ :=
  ∫ K in (0:ℝ)..F, put_integrand discount F K (SABR F K T alpha beta rho nu) T m N

/-- Scenario-1 upper integral
`I_call = quad(lambda x: call_integrand(discount, F, x, SABR(F,x,T,...), T, m, N), F, 5000)`. -/
def I_call (discount F T m N alpha beta rho nu : ℝ) : ℝ :=
  ∫ K in F..(5000:ℝ), call_integrand discount F K (SABR F K T alpha beta rho nu) T m N

/-- Scenario-1 present value, source: `v_0 = discount * g_0(F) + I_put[0] + I_call[0]`. -/
def v_0 (discount F T m N alpha beta rho nu : ℝ) : ℝ :=
  discount * g_0 F + I_put discount F T m N alpha beta rho nu
    + I_call discount F T m N alpha beta rho nu

/-- Scenario-2 strike threshold, source: `L = (0.04** (1/2)) ** 4`. -/
def L : ℝ := ((0.04:ℝ) ^ ((1:ℝ)/2))^(4:ℕ)

/-- The scenario-2 present-value formula with a configurable threshold `Lv`:
`h_1(Lv, m, N) * payer_swaption(discount, F, Lv, SABR(F,Lv,T,...), T, m, N)
 + quad(lambda x: call_integrand(discount, F, x, SABR(F,x,T,...), T, m, N), Lv, 5000)`. -/
def v_1_with (Lv discount F T m N alpha beta rho nu : ℝ) : ℝ :=
  h_1 Lv m N * payer_swaption discount F Lv (SABR F Lv T alpha beta rho nu) T m N
    + ∫ K in Lv..(5000:ℝ), call_integrand discount F K (SABR F K T alpha beta rho nu) T m N

/-- Scenario-2 present value, source:
`v_1 = h_1(L, m, N) * payer_swaption(discount, F, L, SABR(F,L,T,...), T, m, N) + I_call2[0]`
with `I_call2 = quad(lambda x: call_integrand(..., SABR(F,x,T,...), T, m, N), L, 5000)`. -/
def v_1 (discount F T m N alpha beta rho nu : ℝ) : ℝ :=
  v_1_with L discount F T m N alpha beta rho nu

/-- Configurable payoff family as the spec words it: `g(K) = K**(1/p) - 0.04**(1/q)`
for arbitrary exponents `p`, `q` (claim C9's claimed interface). -/
def gConfig (p q K : ℝ) : ℝ := K ^ ((1:ℝ)/p) - (0.04:ℝ) ^ ((1:ℝ)/q)

/-- First power-rule derivative of the configurable payoff family:
`g'(K) = (1/p)*K**(1/p - 1)`. -/
def gConfig1 (p K : ℝ) : ℝ := 1/p * K ^ ((1:ℝ)/p - 1)

/-- Second power-rule derivative of the configurable payoff family:
`g''(K) = (1/p)*(1/p - 1)*K**(1/p - 2)`. -/
def gConfig2 (p K : ℝ) : ℝ := 1/p * (1/p - 1) * K ^ ((1:ℝ)/p - 2)

/-! ## Properties of the normal cumulative distribution function -/

lemma gauss_integrable : Integrable (fun t : ℝ => Real.exp (-t^2/2)) := by
  have h := integrable_exp_neg_mul_sq (b := (1:ℝ)/2) (by norm_num)
  have e : (fun t : ℝ => Real.exp (-t^2/2)) = fun x : ℝ => Real.exp (-((1:ℝ)/2) * x^2) := by
    funext t; congr 1; ring
  rw [e]; exact h

lemma gauss_integrableOn (s : Set ℝ) :
    IntegrableOn (fun t : ℝ => Real.exp (-t^2/2)) s := gauss_integrable.integrableOn

lemma gauss_total : (∫ t : ℝ, Real.exp (-t^2/2)) = Real.sqrt (2*Real.pi) := by
  have h := integral_gaussian ((1:ℝ)/2)
  have e : (fun t : ℝ => Real.exp (-t^2/2)) = fun x : ℝ => Real.exp (-((1:ℝ)/2) * x^2) := by
    funext t; congr 1; ring
  rw [e, h]
  congr 1
  ring

lemma normCdf_add_neg (x : ℝ) : normCdf x + normCdf (-x) = 1 := by
  have h1 : (∫ t in Iic (-x), Real.exp (-t^2/2)) = ∫ t in Ioi x, Real.exp (-t^2/2) := by
    have h := integral_comp_neg_Iic (-x) (fun t : ℝ => Real.exp (-t^2/2))
    simp only [neg_neg, neg_sq] at h
    exact h
  have h2 : (∫ t in Iic x, Real.exp (-t^2/2)) + ∫ t in Ioi x, Real.exp (-t^2/2)
      = ∫ t : ℝ, Real.exp (-t^2/2) :=
    intervalIntegral.integral_Iic_add_Ioi (gauss_integrableOn _) (gauss_integrableOn _)
  have hs : Real.sqrt (2*Real.pi) ≠ 0 := ne_of_gt (Real.sqrt_pos.mpr Real.two_pi_pos)
  rw [normCdf, normCdf, h1, div_add_div_same, h2, gauss_total, div_self hs]

lemma normCdf_strictMono {a b : ℝ} (hab : a < b) : normCdf a < normCdf b := by
  have hc : 0 < Real.sqrt (2*Real.pi) := Real.sqrt_pos.mpr Real.two_pi_pos
  have key : (∫ t in Iic b, Real.exp (-t^2/2)) - ∫ t in Iic a, Real.exp (-t^2/2)
      = ∫ t in a..b, Real.exp (-t^2/2) :=
    intervalIntegral.integral_Iic_sub_Iic (gauss_integrableOn _) (gauss_integrableOn _)
  have pos : 0 < ∫ t in a..b, Real.exp (-t^2/2) :=
    intervalIntegral.intervalIntegral_pos_of_pos (gauss_integrable.intervalIntegrable)
      (fun t => Real.exp_pos _) hab
  have e : normCdf b - normCdf a
      = (∫ t in a..b, Real.exp (-t^2/2)) / Real.sqrt (2*Real.pi) := by
    rw [normCdf, normCdf, div_sub_div_same, key]
  have := div_pos pos hc
  linarith

/-! ## Exact rational values of the recurring power expressions -/

lemma rpow_004_half : (0.04:ℝ) ^ ((1:ℝ)/2) = 0.2 := by
  have h2 : (0.04:ℝ) = (0.2:ℝ)^(2:ℕ) := by norm_num
  rw [h2, ← Real.rpow_natCast (0.2:ℝ) 2, ← Real.rpow_mul (by norm_num : (0:ℝ) ≤ 0.2)]
  norm_num

lemma rpow_0016_quarter : (0.0016:ℝ) ^ ((1:ℝ)/4) = 0.2 := by
  have h4 : (0.0016:ℝ) = (0.2:ℝ)^(4:ℕ) := by norm_num
  rw [h4, ← Real.rpow_natCast (0.2:ℝ) 4, ← Real.rpow_mul (by norm_num : (0:ℝ) ≤ 0.2)]
  norm_num

lemma L_eq : L = 0.0016 := by
  rw [L, rpow_004_half]; norm_num

lemma g0_L : g_0 L = 0 := by
  rw [g_0, L_eq, rpow_0016_quarter, rpow_004_half]; norm_num

/-! ## Black76 put-call parity -/

lemma black76_parity (F K sigma T : ℝ) :
    Black76Call F K sigma T - Black76Put F K sigma T = F - K := by
  have h1 := normCdf_add_neg (Bd1 F K sigma T)
  have h2 := normCdf_add_neg (Bd2 F K sigma T)
  simp only [Black76Call, Black76Put]
  calc F*normCdf (Bd1 F K sigma T) - K*normCdf (Bd2 F K sigma T)
        - (K*normCdf (-Bd2 F K sigma T) - F*normCdf (-Bd1 F K sigma T))
      = F*(normCdf (Bd1 F K sigma T) + normCdf (-Bd1 F K sigma T))
        - K*(normCdf (Bd2 F K sigma T) + normCdf (-Bd2 F K sigma T)) := by ring
    _ = F*1 - K*1 := by rw [h1, h2]
    _ = F - K := by ring

/-- C4: put-call parity: for every `F > 0`, `K > 0`, `sigma > 0`, `T > 0`,
`Black76Call(F,K,sigma,T) - Black76Put(F,K,sigma,T) = F - K`, exactly, over the
real-valued embedding. -/
theorem black76_put_call_parity (F K sigma T : ℝ)
    (hF : 0 < F) (hK : 0 < K) (hs : 0 < sigma) (hT : 0 < T) :
    Black76Call F K sigma T - Black76Put F K sigma T = F - K :=
  black76_parity F K sigma T

/-- Witness for C4 at the concrete input `F = 2, K = 1, sigma = 1, T = 1`. -/
theorem black76_put_call_parity_witness :
    Black76Call 2 1 1 1 - Black76Put 2 1 1 1 = 2 - 1 :=
  black76_put_call_parity 2 1 1 1 (by norm_num) (by norm_num) (by norm_num) (by norm_num)

/-- C10: at-the-money payer/receiver symmetry: for every discount `D`, forward `F > 0`,
`sigma > 0`, `T > 0`, `m`, `N`, the payer and receiver swaption PVs coincide exactly
when the strike equals the forward, which is what makes scenario 1's omission of the
`h'(F)·[Vpay(F) - Vrec(F)]` boundary term exact. -/
theorem atm_payer_eq_receiver (discount F sigma T m N : ℝ)
    (hF : 0 < F) (hs : 0 < sigma) (hT : 0 < T) :
    payer_swaption discount F F sigma T m N = receiver_swaption discount F F sigma T m N := by
  have h1 := normCdf_add_neg (Bd1 F F sigma T)
  have h2 := normCdf_add_neg (Bd2 F F sigma T)
  have e1 : normCdf (Bd1 F F sigma T) = 1 - normCdf (-Bd1 F F sigma T) := by linarith
  have e2 : normCdf (Bd2 F F sigma T) = 1 - normCdf (-Bd2 F F sigma T) := by linarith
  simp only [payer_swaption, receiver_swaption, Black76Call, Black76Put, e1, e2]
  ring

/-- Witness for C10 at the concrete input
`discount = 1, F = 1, sigma = 1, T = 1, m = 1, N = 1`. -/
theorem atm_payer_eq_receiver_witness :
    payer_swaption 1 1 1 1 1 1 1 = receiver_swaption 1 1 1 1 1 1 1 :=
  atm_payer_eq_receiver 1 1 1 1 1 1 (by norm_num) (by norm_num) (by norm_num)

/-- C1: scenario-1 replication: for every discount, forward, maturity, frequency,
period count and SABR parameters, the computed `v_0` equals `discount·g_0(F)` plus the
integral over `K` from `0` to `F` of `h''(K)·ReceiverSwaption` plus the integral over
`K` from `F` to the truncation bound `5000` of `h''(K)·PayerSwaption`, where at every
integration point the volatility is `SABR(F,K,T,alpha,beta,rho,nu)` evaluated at that
`K`. -/
theorem v0_replication (discount F T m N alpha beta rho nu : ℝ) :
    v_0 discount F T m N alpha beta rho nu =
      discount * g_0 F
        + (∫ K in (0:ℝ)..F, h_2 K m N *
            receiver_swaption discount F K (SABR F K T alpha beta rho nu) T m N)
        + ∫ K in F..(5000:ℝ), h_2 K m N *
            payer_swaption discount F K (SABR F K T alpha beta rho nu) T m N := rfl

/-- C2: scenario-2 replication: the computed `v_1` equals
`h'(L)·PayerSwaption(discount,F,L,SABR(F,L,T,…),T,m,N)` plus the integral over `K`
from `L` to `5000` of `h''(K)·PayerSwaption(…, SABR(F,K,T,…), …)`, where the threshold
`L = (0.04^(1/2))^4 = 0.0016` satisfies `g_0(L) = 0` exactly. -/
theorem v1_replication (discount F T m N alpha beta rho nu : ℝ) :
    (v_1 discount F T m N alpha beta rho nu =
      h_1 L m N * payer_swaption discount F L (SABR F L T alpha beta rho nu) T m N
        + ∫ K in L..(5000:ℝ), h_2 K m N *
            payer_swaption discount F K (SABR F K T alpha beta rho nu) T m N)
      ∧ L = 0.0016 ∧ g_0 L = 0 :=
  ⟨rfl, L_eq, g0_L⟩

/-- C9 counterexample: the code's payoff function does not accept the exponents as
parameters; as a function of `K` alone it agrees with the configurable family
`K^(1/p) - 0.04^(1/q)` only at `p = 4`: at `p = q = 2` and `K = 16` the two differ
(`g_0(16) = 1.8` while `16^(1/2) - 0.04^(1/2) = 3.8`). -/
theorem g_not_configurable : g_0 16 ≠ gConfig 2 2 16 := by
  have h16q : (16:ℝ) ^ ((1:ℝ)/4) = 2 := by
    rw [show (16:ℝ) = (2:ℝ)^(4:ℕ) by norm_num, ← Real.rpow_natCast (2:ℝ) 4,
      ← Real.rpow_mul (by norm_num : (0:ℝ) ≤ 2)]
    norm_num
  have h16h : (16:ℝ) ^ ((1:ℝ)/2) = 4 := by
    rw [show (16:ℝ) = (4:ℝ)^(2:ℕ) by norm_num, ← Real.rpow_natCast (4:ℝ) 2,
      ← Real.rpow_mul (by norm_num : (0:ℝ) ≤ 4)]
    norm_num
  rw [g_0, gConfig, h16q, h16h, rpow_004_half]
  norm_num

/-- C9 amended: the payoff functions hard-code the exponents `p = 4`, `q = 2`: for
every `K`, `g_0`, `g_1`, `g_2` coincide with the configurable family
`K^(1/p) - 0.04^(1/q)` and its power-rule derivatives instantiated at `p = 4`,
`q = 2`; the exponents are embedded literals, not parameters of the functions. -/
theorem g_hardcoded_p4_q2 (K : ℝ) :
    g_0 K = gConfig 4 2 K ∧ g_1 K = gConfig1 4 K ∧ g_2 K = gConfig2 4 K := by
  refine ⟨rfl, ?_, ?_⟩
  · rw [g_1, gConfig1, show (1:ℝ)/4 - 1 = -(3:ℝ)/4 by norm_num]
  · rw [g_2, gConfig2, show (1:ℝ)/4 - 2 = -(7:ℝ)/4 by norm_num]
    ring

/-! ## IRR positivity and decay -/

lemma IRR_0_pos {K m N : ℝ} (hK : 0 < K) (hm : 1 ≤ m) (hN : 1 ≤ N) : 0 < IRR_0 K m N := by
  have hm0 : 0 < m := lt_of_lt_of_le one_pos hm
  have hu : 1 < 1 + K/m := by have := div_pos hK hm0; linarith
  have ha : 0 < N*m := mul_pos (lt_of_lt_of_le one_pos hN) hm0
  have hP : 1 < (1 + K/m) ^ (N*m) :=
    (Real.one_lt_rpow_iff_of_pos (by linarith)).mpr (Or.inl ⟨hu, ha⟩)
  have hfrac : 1/(1 + K/m) ^ (N*m) < 1 := by
    rw [div_lt_one (by linarith)]; exact hP
  rw [IRR_0]
  have h1K : 0 < 1/K := by positivity
  have h2 : 0 < 1 - 1/(1 + K/m) ^ (N*m) := by linarith
  exact mul_pos h1K h2

lemma IRR_0_tendsto_zero {m N : ℝ} (hm : 1 ≤ m) (hN : 1 ≤ N) :
    Tendsto (fun K => IRR_0 K m N) atTop (nhds 0) := by
  have hm0 : 0 < m := lt_of_lt_of_le one_pos hm
  have ha : 0 < N*m := mul_pos (lt_of_lt_of_le one_pos hN) hm0
  have t1 : Tendsto (fun K : ℝ => 1/K) atTop (nhds 0) := by
    simpa only [one_div] using tendsto_inv_atTop_zero
  have tu : Tendsto (fun K : ℝ => 1 + K/m) atTop atTop :=
    tendsto_atTop_add_const_left atTop 1 (Tendsto.atTop_div_const hm0 tendsto_id)
  have tP : Tendsto (fun K : ℝ => (1 + K/m) ^ (N*m)) atTop atTop :=
    (tendsto_rpow_atTop ha).comp tu
  have tfrac : Tendsto (fun K : ℝ => 1/(1 + K/m) ^ (N*m)) atTop (nhds 0) := by
    simpa only [one_div] using tP.inv_tendsto_atTop
  have t2 : Tendsto (fun K : ℝ => 1 - 1/(1 + K/m) ^ (N*m)) atTop (nhds 1) := by
    simpa using tendsto_const_nhds.sub tfrac
  have := t1.mul t2
  simp only [zero_mul] at this
  exact this

/-- C6: IRR positivity and decay: for every `K > 0`, `m ≥ 1`, `N ≥ 1`,
`IRR_0(K,m,N) = (1/K)·(1 − (1+K/m)^(−N·m))` is strictly positive, and
`IRR_0(·,m,N)` tends to `0` as `K` tends to infinity. -/
theorem IRR_positivity_and_decay (K m N : ℝ) (hK : 0 < K) (hm : 1 ≤ m) (hN : 1 ≤ N) :
    0 < IRR_0 K m N
    ∧ Tendsto (fun K => IRR_0 K m N) atTop (nhds 0)
    ∧ IRR_0 K m N = 1/K * (1 - (1 + K/m) ^ (-(N*m))) := by
  have hm0 : 0 < m := lt_of_lt_of_le one_pos hm
  have hu : 0 < 1 + K/m := by have := div_pos hK hm0; linarith
  refine ⟨IRR_0_pos hK hm hN, IRR_0_tendsto_zero hm hN, ?_⟩
  rw [IRR_0, Real.rpow_neg (le_of_lt hu), ← one_div]

/-- Witness for C6 at the concrete input `K = 1, m = 1, N = 1`. -/
theorem IRR_positivity_and_decay_witness :
    0 < IRR_0 1 1 1
    ∧ Tendsto (fun K => IRR_0 K 1 1) atTop (nhds 0)
    ∧ IRR_0 1 1 1 = 1/1 * (1 - (1 + 1/1) ^ (-((1:ℝ)*1))) :=
  IRR_positivity_and_decay 1 1 1 (by norm_num) (by norm_num) (by norm_num)

/-! ## Derivative consistency of the closed-form IRR, payoff and weight functions -/

lemma hasDerivAt_base (m K : ℝ) : HasDerivAt (fun x : ℝ => 1 + x/m) (1/m) K := by
  simpa using ((hasDerivAt_id K).div_const m).const_add 1

lemma hasDerivAt_upow {K m : ℝ} (hu : 1 + K/m ≠ 0) (a : ℝ) :
    HasDerivAt (fun x : ℝ => (1 + x/m) ^ a) (a * (1 + K/m) ^ (a-1) * (1/m)) K := by
  have h := Real.hasDerivAt_rpow_const (x := 1 + K/m) (p := a) (Or.inl hu)
  simpa using h.comp K (hasDerivAt_base m K)

lemma hasDerivAt_IRR_0 {K m N : ℝ} (hK : 0 < K) (hm : 1 ≤ m) (hN : 1 ≤ N) :
    HasDerivAt (fun x => IRR_0 x m N) (IRR_1 K m N) K := by
  have hm0 : 0 < m := lt_of_lt_of_le one_pos hm
  have hu : 0 < 1 + K/m := by have := div_pos hK hm0; linarith
  have hA : (0:ℝ) < (1 + K/m) ^ (N*m) := Real.rpow_pos_of_pos hu _
  have hfun : (fun x => IRR_0 x m N)
      = (fun x : ℝ => x⁻¹ * (1 - ((1 + x/m) ^ (N*m))⁻¹)) := by
    funext x; rw [IRR_0]; ring
  rw [hfun]
  have hAder := hasDerivAt_upow hu.ne' (N*m)
  have hder := (hasDerivAt_inv hK.ne').mul ((hAder.inv hA.ne').const_sub 1)
  refine hder.congr_deriv ?_
  rw [IRR_1, IRR_0, Real.rpow_sub hu (N*m) 1, Real.rpow_add hu (N*m) 1, Real.rpow_one]
  field_simp
  ring

lemma hasDerivAt_IRR_1 {K m N : ℝ} (hK : 0 < K) (hm : 1 ≤ m) (hN : 1 ≤ N) :
    HasDerivAt (fun x => IRR_1 x m N) (IRR_2 K m N) K := by
  have hm0 : 0 < m := lt_of_lt_of_le one_pos hm
  have hu : 0 < 1 + K/m := by have := div_pos hK hm0; linarith
  have hA : (0:ℝ) < (1 + K/m) ^ (N*m) := Real.rpow_pos_of_pos hu _
  have hB : (0:ℝ) < (1 + K/m) ^ (N*m+1) := Real.rpow_pos_of_pos hu _
  have hfun : (fun x => IRR_1 x m N)
      = (fun x : ℝ => -(x⁻¹ * IRR_0 x m N)
          + N*m*(x⁻¹*m⁻¹ * ((1 + x/m) ^ (N*m+1))⁻¹)) := by
    funext x; rw [IRR_1]; ring
  rw [hfun]
  have h1 := ((hasDerivAt_inv hK.ne').mul (hasDerivAt_IRR_0 hK hm hN)).neg
  have hBder := hasDerivAt_upow hu.ne' (N*m+1)
  have h2 := (((hasDerivAt_inv hK.ne').mul_const m⁻¹).mul (hBder.inv hB.ne')).const_mul (N*m)
  refine (h1.add h2).congr_deriv ?_
  rw [IRR_2, IRR_1, IRR_0, show N*m+1-1 = N*m by ring,
    Real.rpow_add hu (N*m) 1, Real.rpow_add hu (N*m) 2, Real.rpow_one, Real.rpow_two]
  field_simp
  ring

lemma hasDerivAt_g_0 {K : ℝ} (hK : 0 < K) : HasDerivAt g_0 (g_1 K) K := by
  have hfun : g_0 = (fun x : ℝ => x ^ ((1:ℝ)/4) - (0.04:ℝ) ^ ((1:ℝ)/2)) := by
    funext x; rw [g_0]
  rw [hfun]
  have h := (Real.hasDerivAt_rpow_const (x := K) (p := (1:ℝ)/4) (Or.inl hK.ne')).sub_const
    ((0.04:ℝ) ^ ((1:ℝ)/2))
  refine h.congr_deriv ?_
  rw [g_1, show (1:ℝ)/4 - 1 = -(3:ℝ)/4 by norm_num]

lemma hasDerivAt_g_1 {K : ℝ} (hK : 0 < K) : HasDerivAt g_1 (g_2 K) K := by
  have hfun : g_1 = (fun x : ℝ => 1/4 * x ^ (-(3:ℝ)/4)) := by
    funext x; rw [g_1]
  rw [hfun]
  have h := (Real.hasDerivAt_rpow_const (x := K) (p := -(3:ℝ)/4) (Or.inl hK.ne')).const_mul
    ((1:ℝ)/4)
  refine h.congr_deriv ?_
  rw [g_2, show -(3:ℝ)/4 - 1 = -(7:ℝ)/4 by norm_num]
  ring

lemma hasDerivAt_h_0 {K m N : ℝ} (hK : 0 < K) (hm : 1 ≤ m) (hN : 1 ≤ N) :
    HasDerivAt (fun x => h_0 x m N) (h_1 K m N) K := by
  have hI : 0 < IRR_0 K m N := IRR_0_pos hK hm hN
  have hfun : (fun x => h_0 x m N) = (fun x : ℝ => g_0 x / IRR_0 x m N) := by
    funext x; rw [h_0]
  rw [hfun]
  refine ((hasDerivAt_g_0 hK).div (hasDerivAt_IRR_0 hK hm hN) hI.ne').congr_deriv ?_
  rw [h_1]
  ring

lemma hasDerivAt_h_1 {K m N : ℝ} (hK : 0 < K) (hm : 1 ≤ m) (hN : 1 ≤ N) :
    HasDerivAt (fun x => h_1 x m N) (h_2 K m N) K := by
  have hI : 0 < IRR_0 K m N := IRR_0_pos hK hm hN
  have hfun : (fun x => h_1 x m N)
      = (fun x : ℝ => (IRR_0 x m N * g_1 x - g_0 x * IRR_1 x m N) / (IRR_0 x m N)^2) := by
    funext x; rw [h_1]
  rw [hfun]
  have hnum := ((hasDerivAt_IRR_0 hK hm hN).mul (hasDerivAt_g_1 hK)).sub
    ((hasDerivAt_g_0 hK).mul (hasDerivAt_IRR_1 hK hm hN))
  have hden := (hasDerivAt_IRR_0 hK hm hN).pow 2
  refine (hnum.div hden (pow_ne_zero 2 hI.ne')).congr_deriv ?_
  rw [h_2]
  field_simp
  ring

/-- C5: derivative consistency: for every `K > 0`, `m ≥ 1`, `N ≥ 1`, the closed forms
`IRR_1` and `IRR_2` are the exact first and second derivatives of `IRR_0`, `g_1` and
`g_2` the exact derivatives of `g_0`, and the quotient-rule formulas `h_1` and `h_2`
are the exact first and second derivatives of `h_0(K) = g_0(K)/IRR_0(K,m,N)`. -/
theorem h_derivative_consistency (K m N : ℝ) (hK : 0 < K) (hm : 1 ≤ m) (hN : 1 ≤ N) :
    HasDerivAt (fun x => IRR_0 x m N) (IRR_1 K m N) K
    ∧ HasDerivAt (fun x => IRR_1 x m N) (IRR_2 K m N) K
    ∧ HasDerivAt g_0 (g_1 K) K
    ∧ HasDerivAt g_1 (g_2 K) K
    ∧ HasDerivAt (fun x => h_0 x m N) (h_1 K m N) K
    ∧ HasDerivAt (fun x => h_1 x m N) (h_2 K m N) K :=
  ⟨hasDerivAt_IRR_0 hK hm hN, hasDerivAt_IRR_1 hK hm hN, hasDerivAt_g_0 hK,
    hasDerivAt_g_1 hK, hasDerivAt_h_0 hK hm hN, hasDerivAt_h_1 hK hm hN⟩

/-- Witness for C5 at the concrete input `K = 1, m = 1, N = 1`. -/
theorem h_derivative_consistency_witness :
    HasDerivAt (fun x => IRR_0 x 1 1) (IRR_1 1 1 1) 1
    ∧ HasDerivAt (fun x => IRR_1 x 1 1) (IRR_2 1 1 1) 1
    ∧ HasDerivAt g_0 (g_1 1) 1
    ∧ HasDerivAt g_1 (g_2 1) 1
    ∧ HasDerivAt (fun x => h_0 x 1 1) (h_1 1 1 1) 1
    ∧ HasDerivAt (fun x => h_1 x 1 1) (h_2 1 1 1) 1 :=
  h_derivative_consistency 1 1 1 (by norm_num) (by norm_num) (by norm_num)

/-! ## The SABR branch formulas (claim C3) -/

lemma div_lt_div_of_lt_of_pos {A B z D : ℝ} (hAB : B < A) (hz : 0 < z) (hD : 0 < D) :
    B*z/D < A*z/D := by
  rw [div_lt_div_iff₀ hD hD]
  nlinarith [mul_pos (mul_pos (sub_pos.mpr hAB) hz) hD]

/-- C3 counterexample: at `F = 2, K = 1, T = 1, alpha = 1, beta = 0, rho = 0, nu = 1`
the code's SABR value differs from the claim's formula, because in the general branch
the code computes `term1 = ((1-beta)^2/24)·alpha²/(F·K)^(1-beta)` (here `1/48`) while
the claim reuses the at-the-money `term1 = ((1-beta)^2/24)·alpha²/F^(2-2beta)`
(here `1/96`). -/
theorem sabr_general_terms_counterexample :
    SABR 2 1 1 1 0 0 1 ≠ SABRclaimC3 2 1 1 1 0 0 1 := by
  have hif : ¬ |(2:ℝ) - 1| < 1e-12 := by norm_num
  rw [SABR, SABRclaimC3, if_neg hif, if_neg hif, sabrGeneral, sabrGeneralClaimC3]
  set z := sabrz 2 1 1 0 1 with hzdef
  have hlog : 0 < Real.log ((2:ℝ)/1) := by
    rw [show ((2:ℝ)/1) = 2 by norm_num]
    exact Real.log_pos (by norm_num)
  have hzpos : 0 < z := by
    rw [hzdef, sabrz]
    exact mul_pos (mul_pos (by norm_num)
      (Real.rpow_pos_of_pos (by norm_num : (0:ℝ) < 2*1) _)) hlog
  have hchi : 0 < sabrchi z 0 := by
    rw [sabrchi]
    apply Real.log_pos
    have hS : (1:ℝ) ≤ (1 - 2*0*z + z*z) ^ ((0.5):ℝ) := by
      rw [show (0.5:ℝ) = 1/2 by norm_num, ← Real.sqrt_eq_rpow]
      refine (Real.le_sqrt (by norm_num) (by nlinarith)).mpr (by nlinarith)
    rw [lt_div_iff₀ (by norm_num : (0:ℝ) < 1 - 0)]
    linarith
  have hQ : 0 < 1 + sabrD1 2 1 0 + sabrD2 2 1 0 := by
    have h1 : 0 ≤ sabrD1 2 1 0 := by rw [sabrD1]; positivity
    have h2 : 0 ≤ sabrD2 2 1 0 := by rw [sabrD2]; positivity
    linarith
  have hD : 0 < ((2:ℝ)*1) ^ (((1:ℝ) - 0)/2) * (1 + sabrD1 2 1 0 + sabrD2 2 1 0)
      * sabrchi z 0 :=
    mul_pos (mul_pos (Real.rpow_pos_of_pos (by norm_num) _) hQ) hchi
  have hG1 : sabrG1 2 1 1 0 = 1/48 := by
    rw [sabrG1, show ((1:ℝ) - 0) = 1 by norm_num, Real.rpow_one]
    norm_num
  have hA1 : sabrA1 2 1 0 = 1/96 := by
    rw [sabrA1, show ((2:ℝ) - 2*0) = 2 by norm_num, Real.rpow_two]
    norm_num
  have hG2 : sabrG2 2 1 1 0 0 1 = 0 := by
    rw [sabrG2]; norm_num
  have hA2 : sabrA2 2 1 0 0 1 = 0 := by
    rw [sabrA2]; norm_num
  have hA3 : sabrA3 0 1 = 1/12 := by
    rw [sabrA3]; norm_num
  apply ne_of_gt
  rw [hG1, hG2, hA1, hA2, hA3]
  exact div_lt_div_of_lt_of_pos (by norm_num) hzpos hD

/-- C3 amended: `SABR` branches on `|F - K| < 1e-12`; the at-the-money branch is the
closed form stated in the claim, and the general branch is the stated formula with the
correction terms computed from `(F·K)` powers: `term1 = ((1-beta)²/24)·alpha²/(FK)^(1-beta)`
and `term2 = 0.25·rho·beta·nu·alpha/(FK)^((1-beta)/2)` (rather than the at-the-money
`F`-power forms), `term3` unchanged. -/
theorem sabr_two_branch_formula (F K T alpha beta rho nu : ℝ) :
    SABR F K T alpha beta rho nu =
      if |F - K| < 1e-12 then
        alpha*(1 + (((1 - beta)^2/24)*alpha^2/F ^ (2 - 2*beta)
          + 0.25*rho*beta*nu*alpha/F ^ (1 - beta)
          + ((2 - 3*rho^2)/24)*nu^2)*T)/F ^ (1 - beta)
      else
        alpha*(1 + (((1 - beta)^2/24)*alpha^2/(F*K) ^ (1 - beta)
          + 0.25*rho*beta*nu*alpha/(F*K) ^ ((1 - beta)/2)
          + ((2 - 3*rho^2)/24)*nu^2)*T)
          *((nu/alpha)*(F*K) ^ ((1 - beta)/2)*Real.log (F/K))
        / ((F*K) ^ ((1 - beta)/2)
          *(1 + ((1 - beta)^2/24)*(Real.log (F/K))^2
            + ((1 - beta)^4/1920)*(Real.log (F/K))^4)
          *Real.log ((Real.sqrt (1 - 2*rho*((nu/alpha)*(F*K) ^ ((1 - beta)/2)*Real.log (F/K))
              + ((nu/alpha)*(F*K) ^ ((1 - beta)/2)*Real.log (F/K))^2)
            + ((nu/alpha)*(F*K) ^ ((1 - beta)/2)*Real.log (F/K)) - rho)/(1 - rho))) := by
  rw [SABR]
  by_cases h : |F - K| < 1e-12
  · rw [if_pos h, if_pos h, sabrATM, sabrA1, sabrA2, sabrA3]
    ring
  · rw [if_neg h, if_neg h, sabrGeneral, sabrG1, sabrG2, sabrA3, sabrD1, sabrD2,
      sabrz, sabrchi, show (0.5:ℝ)*(1 - beta) = (1 - beta)/2 by ring,
      show (0.5:ℝ) = 1/2 by norm_num, ← Real.sqrt_eq_rpow]
    set zz := (nu/alpha)*(F*K) ^ ((1 - beta)/2)*Real.log (F/K) with hzz
    rw [show zz*zz = zz^2 from (pow_two zz).symm]
    ring

/-! ## SABR positivity (claim C7) -/

lemma sabr_atm_negative_example : SABR 1 1 5 1 1 (-(9:ℝ)/10) 1 = -(103:ℝ)/480 := by
  rw [SABR, if_pos (by norm_num : |(1:ℝ) - 1| < 1e-12), sabrATM, sabrA1, sabrA2, sabrA3]
  norm_num [Real.one_rpow]

/-- C7 counterexample: the positivity guarantee fails: at
`F = K = 1, T = 5, alpha = 1, beta = 1, rho = -9/10, nu = 1` (all inside the claimed
validity region `F,K,T > 0`, `0 < beta ≤ 1`, `|rho| < 1`, `alpha, nu > 0`) the SABR
function returns `-103/480 < 0`. -/
theorem sabr_positivity_counterexample :
    ¬ (∀ F K T alpha beta rho nu : ℝ, 0 < F → 0 < K → 0 < T →
        0 < beta → beta ≤ 1 → |rho| < 1 → 0 < alpha → 0 < nu →
        0 < SABR F K T alpha beta rho nu) := by
  intro h
  have hval := h 1 1 5 1 1 (-(9:ℝ)/10) 1 (by norm_num) (by norm_num) (by norm_num)
    (by norm_num) (by norm_num) (by rw [abs_lt]; constructor <;> norm_num)
    (by norm_num) (by norm_num)
  rw [sabr_atm_negative_example] at hval
  norm_num at hval

/-- C7 amended: for every `F, K, T > 0`, `0 < beta ≤ 1`, `|rho| < 1`,
`alpha, nu > 0`, the SABR value is strictly positive provided additionally the Hagan
correction factor `1 + (term1 + term2 + term3)·T` of the applicable branch is positive
(the factor whose negativity produced the counterexample). -/
theorem sabr_positivity_amended (F K T alpha beta rho nu : ℝ)
    (hF : 0 < F) (hK : 0 < K) (hT : 0 < T) (hb0 : 0 < beta) (hb1 : beta ≤ 1)
    (hr : |rho| < 1) (ha : 0 < alpha) (hn : 0 < nu)
    (hfac : 0 < sabrFactor F K T alpha beta rho nu) :
    0 < SABR F K T alpha beta rho nu := by
  obtain ⟨hrh1, hrh2⟩ := abs_lt.mp hr
  by_cases hatm : |F - K| < 1e-12
  · rw [SABR, if_pos hatm, sabrATM]
    rw [sabrFactor, if_pos hatm] at hfac
    exact div_pos (mul_pos ha hfac) (Real.rpow_pos_of_pos hF _)
  · rw [SABR, if_neg hatm, sabrGeneral]
    rw [sabrFactor, if_neg hatm] at hfac
    have hFK : 0 < F*K := mul_pos hF hK
    have hP : (0:ℝ) < (F*K) ^ ((1 - beta)/2) := Real.rpow_pos_of_pos hFK _
    have hQ : (0:ℝ) < 1 + sabrD1 F K beta + sabrD2 F K beta := by
      have h1 : 0 ≤ sabrD1 F K beta := by rw [sabrD1]; positivity
      have h2 : 0 ≤ sabrD2 F K beta := by rw [sabrD2]; positivity
      linarith
    have hFne : F ≠ K := by
      intro h
      apply hatm
      rw [h, sub_self, abs_zero]
      norm_num
    set z := sabrz F K alpha beta nu with hzdef
    have hquad : 0 < 1 - 2*rho*z + z*z := by
      nlinarith [sq_nonneg (z - rho), mul_pos (sub_pos.mpr hrh2)
        (show (0:ℝ) < 1 + rho by linarith)]
    have hSrw : (1 - 2*rho*z + z*z) ^ ((0.5):ℝ) = Real.sqrt (1 - 2*rho*z + z*z) := by
      rw [show (0.5:ℝ) = 1/2 by norm_num, Real.sqrt_eq_rpow]
    cases' hFne.lt_or_lt with hFlt hKlt
    · -- F < K: z < 0 and chi(z) < 0, so numerator and denominator are both negative
      have hlog : Real.log (F/K) < 0 :=
        Real.log_neg (div_pos hF hK) ((div_lt_one hK).mpr hFlt)
      have hz : z < 0 := by
        rw [hzdef, sabrz]
        exact mul_neg_of_pos_of_neg
          (mul_pos (div_pos hn ha) (Real.rpow_pos_of_pos hFK _)) hlog
      have hchi : sabrchi z rho < 0 := by
        rw [sabrchi, hSrw]
        have harg1 : (Real.sqrt (1 - 2*rho*z + z*z) + z - rho)/(1 - rho) < 1 := by
          rw [div_lt_one (by linarith : (0:ℝ) < 1 - rho)]
          have hs : Real.sqrt (1 - 2*rho*z + z*z) < 1 - z := by
            rw [Real.sqrt_lt' (by linarith : (0:ℝ) < 1 - z)]
            nlinarith [mul_neg_of_neg_of_pos hz (sub_pos.mpr hrh2)]
          linarith
        have harg0 : 0 < (Real.sqrt (1 - 2*rho*z + z*z) + z - rho)/(1 - rho) := by
          refine div_pos ?_ (by linarith : (0:ℝ) < 1 - rho)
          have hs : rho - z < Real.sqrt (1 - 2*rho*z + z*z) := by
            rcases le_or_lt (rho - z) 0 with hle | hpos'
            · exact lt_of_le_of_lt hle (Real.sqrt_pos.mpr hquad)
            · refine (Real.lt_sqrt (le_of_lt hpos')).mpr ?_
              nlinarith [mul_pos (sub_pos.mpr hrh2) (show (0:ℝ) < 1 + rho by linarith)]
          linarith
        exact Real.log_neg harg0 harg1
      refine div_pos_iff.mpr (Or.inr ⟨?_, ?_⟩)
      · exact mul_neg_of_pos_of_neg (mul_pos ha hfac) hz
      · exact mul_neg_of_pos_of_neg (mul_pos hP hQ) hchi
    · -- K < F: z > 0 and chi(z) > 0
      have hlog : 0 < Real.log (F/K) := Real.log_pos ((one_lt_div hK).mpr hKlt)
      have hz : 0 < z := by
        rw [hzdef, sabrz]
        exact mul_pos (mul_pos (div_pos hn ha) (Real.rpow_pos_of_pos hFK _)) hlog
      have hchi : 0 < sabrchi z rho := by
        rw [sabrchi, hSrw]
        apply Real.log_pos
        rw [lt_div_iff₀ (by linarith : (0:ℝ) < 1 - rho)]
        have hs : 1 - z < Real.sqrt (1 - 2*rho*z + z*z) := by
          rcases le_or_lt (1 - z) 0 with hle | hpos'
          · exact lt_of_le_of_lt hle (Real.sqrt_pos.mpr hquad)
          · refine (Real.lt_sqrt (le_of_lt hpos')).mpr ?_
            nlinarith [mul_pos hz (sub_pos.mpr hrh2)]
        linarith
      exact div_pos (mul_pos (mul_pos ha hfac) hz) (mul_pos (mul_pos hP hQ) hchi)

/-- Witness for the amended C7 at the concrete input
`F = K = 1, T = 1, alpha = 1, beta = 1, rho = 0, nu = 1`
(where the correction factor is `13/12 > 0`). -/
theorem sabr_positivity_amended_witness :
    0 < sabrFactor 1 1 1 1 1 0 1 ∧ 0 < SABR 1 1 1 1 1 0 1 := by
  have hfac : 0 < sabrFactor 1 1 1 1 1 0 1 := by
    rw [sabrFactor, if_pos (by norm_num : |(1:ℝ) - 1| < 1e-12), sabrA1, sabrA2, sabrA3]
    norm_num [Real.one_rpow]
  exact ⟨hfac, sabr_positivity_amended 1 1 1 1 1 0 1 (by norm_num) (by norm_num)
    (by norm_num) (by norm_num) (by norm_num) (by norm_num) (by norm_num)
    (by norm_num) hfac⟩

/-! ## The boundary degenerate case (claim C8) -/

lemma IRR_0_one : IRR_0 1 1 1 = 1/2 := by
  rw [IRR_0, show (1:ℝ)*1 = 1 by norm_num, Real.rpow_one]
  norm_num

lemma IRR_1_one : IRR_1 1 1 1 = -(1:ℝ)/4 := by
  rw [IRR_1, IRR_0_one, show (1:ℝ)*1+1 = 2 by norm_num, Real.rpow_two]
  norm_num

lemma g_0_one : g_0 1 = 4/5 := by
  rw [g_0, Real.one_rpow, rpow_004_half]
  norm_num

lemma g_1_one : g_1 1 = 1/4 := by
  rw [g_1, Real.one_rpow]
  norm_num

lemma h_1_one : h_1 1 1 1 = 13/10 := by
  rw [h_1, IRR_0_one, IRR_1_one, g_0_one, g_1_one]
  norm_num

lemma sabr_one_eval : SABR 1 1 1 1 1 0 1 = 13/12 := by
  rw [SABR, if_pos (by norm_num : |(1:ℝ) - 1| < 1e-12), sabrATM, sabrA1, sabrA2, sabrA3]
  norm_num [Real.one_rpow]

lemma Bd1_one : Bd1 1 1 (13/12) 1 = 13/24 := by
  rw [Bd1, show ((1:ℝ)/1) = 1 by norm_num, Real.log_one, Real.sqrt_one]
  norm_num

lemma Bd2_one : Bd2 1 1 (13/12) 1 = -(13:ℝ)/24 := by
  rw [Bd2, show ((1:ℝ)/1) = 1 by norm_num, Real.log_one, Real.sqrt_one]
  norm_num

lemma payer_one_pos : 0 < payer_swaption 1 1 1 (13/12) 1 1 1 := by
  rw [payer_swaption, IRR_0_one, Black76Call, Bd1_one, Bd2_one]
  have hmono := normCdf_strictMono (show -(13:ℝ)/24 < 13/24 by norm_num)
  nlinarith [hmono]

/-- C8 counterexample: with the threshold set to `L = F`, the scenario-2 formula does
NOT reduce to scenario 1's upper-tail component: at
`discount = F = T = m = N = alpha = beta = 1, rho = 0, nu = 1` the two differ by the
strictly positive at-the-money boundary term `h_1(F)·PayerSwaption(D,F,F,σ,T,m,N)`
(the at-the-money payer swaption has positive time value). -/
theorem boundary_degenerate_counterexample :
    v_1_with 1 1 1 1 1 1 1 1 0 1
      ≠ ∫ K in (1:ℝ)..(5000:ℝ), call_integrand 1 1 K (SABR 1 K 1 1 1 0 1) 1 1 1 := by
  rw [v_1_with, h_1_one, sabr_one_eval]
  intro heq
  have h0 : (0:ℝ) < 13/10 * payer_swaption 1 1 1 (13/12) 1 1 1 :=
    mul_pos (by norm_num) payer_one_pos
  linarith

/-- C8 amended: with the threshold set to `L = F`, the scenario-2 formula equals
scenario 1's upper-tail component PLUS the boundary term
`h_1(F,m,N)·PayerSwaption(D,F,F,SABR(F,F,T,…),T,m,N)`; whenever `D,F,T > 0`,
`m,N ≥ 1` and `SABR(F,F,T,…) > 0` and `h_1(F,m,N) > 0`, that boundary term is
strictly positive, so the scenario-2 value strictly exceeds the upper-tail
component rather than coinciding with it. -/
theorem boundary_degenerate_amended (discount F T m N alpha beta rho nu : ℝ)
    (hD : 0 < discount) (hF : 0 < F) (hT : 0 < T) (hm : 1 ≤ m) (hN : 1 ≤ N)
    (hsig : 0 < SABR F F T alpha beta rho nu) (hh : 0 < h_1 F m N) :
    v_1_with F discount F T m N alpha beta rho nu
        - (∫ K in F..(5000:ℝ),
            call_integrand discount F K (SABR F K T alpha beta rho nu) T m N)
      = h_1 F m N * payer_swaption discount F F (SABR F F T alpha beta rho nu) T m N
    ∧ (∫ K in F..(5000:ℝ),
          call_integrand discount F K (SABR F K T alpha beta rho nu) T m N)
        < v_1_with F discount F T m N alpha beta rho nu := by
  have heq : v_1_with F discount F T m N alpha beta rho nu
      - (∫ K in F..(5000:ℝ),
          call_integrand discount F K (SABR F K T alpha beta rho nu) T m N)
      = h_1 F m N * payer_swaption discount F F (SABR F F T alpha beta rho nu) T m N := by
    rw [v_1_with]
    ring
  have hden : 0 < SABR F F T alpha beta rho nu * Real.sqrt T :=
    mul_pos hsig (Real.sqrt_pos.mpr hT)
  have hd12 : Bd2 F F (SABR F F T alpha beta rho nu) T
      < Bd1 F F (SABR F F T alpha beta rho nu) T := by
    rw [Bd1, Bd2, div_lt_div_iff_of_pos_right hden]
    nlinarith [mul_pos (pow_pos hsig 2) hT]
  have hcall : 0 < Black76Call F F (SABR F F T alpha beta rho nu) T := by
    rw [Black76Call]
    have hmono := normCdf_strictMono hd12
    nlinarith [mul_pos hF (sub_pos.mpr hmono)]
  have hbdry : 0 < h_1 F m N
      * payer_swaption discount F F (SABR F F T alpha beta rho nu) T m N := by
    refine mul_pos hh ?_
    rw [payer_swaption]
    exact mul_pos (mul_pos hD (IRR_0_pos hF hm hN)) hcall
  exact ⟨heq, by linarith⟩

/-- Witness for the amended C8 at the concrete input
`discount = F = T = m = N = alpha = beta = 1, rho = 0, nu = 1`. -/
theorem boundary_degenerate_amended_witness :
    v_1_with 1 1 1 1 1 1 1 1 0 1
        - (∫ K in (1:ℝ)..(5000:ℝ), call_integrand 1 1 K (SABR 1 K 1 1 1 0 1) 1 1 1)
      = h_1 1 1 1 * payer_swaption 1 1 1 (SABR 1 1 1 1 1 0 1) 1 1 1
    ∧ (∫ K in (1:ℝ)..(5000:ℝ), call_integrand 1 1 K (SABR 1 K 1 1 1 0 1) 1 1 1)
        < v_1_with 1 1 1 1 1 1 1 1 0 1 :=
  boundary_degenerate_amended 1 1 1 1 1 1 1 0 1 (by norm_num) (by norm_num)
    (by norm_num) (by norm_num) (by norm_num)
    (by rw [sabr_one_eval]; norm_num) (by rw [h_1_one]; norm_num)

end
